import Mathlib

/-!
Shallow embedding of the merge-and-derive engine of
`src/components/Main/Results/DeterministicLinePlot.tsx`.

Conventions of the embedding:
* JS numbers carrying raw simulation totals are modelled as `ℚ`; integer
  counts (observation counts, rounded values, epoch-millisecond timestamps)
  are modelled as `ℤ`.
* A JS value that may be `undefined` is modelled as `Option`.
* A JS plain object produced by the component is modelled as the `TimePoint`
  structure below.  JS object spread (`{...acc, ...d}`) copies every key the
  later object *has*, including keys whose value is `undefined`; the
  `hasComputed` / `hasObserved` flags record which key families an object
  carries so that the spread can be embedded faithfully.
* `Array.prototype.sort` (ES2019: stable) with the comparator
  `(a, b) => (a.time > b.time ? 1 : -1)` is embedded as the stable sort by
  `time` (`List.insertionSort` with `timeLE`): the comparator orders records
  by ascending `time` and ties keep their concatenation order.
* A member access that throws in JS (e.g. `lower[i]` when `lower` is shorter
  than `mean`) is surfaced as `none` of an `Option`-returning builder.
-/

/-- Models `verifyPositive = (x) => (x > 0 ? x : undefined)` (source line 133),
as applied to integer-valued inputs (bed capacities, case-count deltas). -/
def verifyPositive (x : ℤ) : Option ℤ :=
  if 0 < x then some x else none

/-- Models JS `Math.round` on a rational: round half toward positive
infinity, i.e. `⌊x + 1/2⌋`. -/
def jsRound (q : ℚ) : ℤ :=
  (q + 1 / 2).floor

/-- Models the JS expression `Math.round t || undefined`: a rounded value of
exactly zero is coerced to `undefined` (absent). -/
def roundOrUndef (q : ℚ) : Option ℤ :=
  if jsRound q = 0 then none else some (jsRound q)

/-- Models the JS expression `x || undefined` for an optional integer `x`:
`undefined` and `0` both collapse to `undefined`. -/
def orUndef (x : Option ℤ) : Option ℤ :=
  match x with
  | none => none
  | some v => if v = 0 then none else some v

/-- Models JS truthiness of an optional number: `undefined` and `0` are
falsy, every other integer is truthy. -/
def truthyOpt (x : Option ℤ) : Bool :=
  match x with
  | none => false
  | some v => v != 0

/-- The values of the `DATA_POINTS` record (source lines 35-55) in insertion
order, i.e. `Object.values(DATA_POINTS)`.  Note `'newCases'` occurs twice
(`NewCases` and `ObservedNewCases` share the string). -/
def dataPointsValues : List String :=
  ["exposed", "susceptible", "infectious", "severe", "critical", "overflow",
   "recovered", "fatality", "cumulativeCases", "newCases", "hospitalBeds",
   "ICUbeds", "observedDeaths", "cases", "currentHospitalized", "ICU",
   "newCases"]

/-- The totals of the `current` compartments of one trajectory sample: each
field stands for the `.total` of the corresponding compartment object
(`x.current.susceptible.total`, ...). -/
structure CurrentState where
  susceptible : ℚ
  infectious : ℚ
  severe : ℚ
  critical : ℚ
  overflow : ℚ
deriving DecidableEq, Repr

/-- The totals of the `cumulative` compartments of one trajectory sample
(`x.cumulative.recovered.total`, `x.cumulative.fatality.total`). -/
structure CumulativeState where
  recovered : ℚ
  fatality : ℚ
deriving DecidableEq, Repr

/-- One sample of `data.trajectory.mean` / `.lower` / `.upper`: a timestamp
(epoch milliseconds) plus nested compartment totals. -/
structure TrajectorySample where
  time : ℤ
  current : CurrentState
  cumulative : CumulativeState
deriving DecidableEq, Repr

/-- One raw empirical observation record (`EmpiricalData` element): a
timestamp (the `new Date(d.time).getTime()` value) plus optional counts. -/
structure EmpiricalDatum where
  time : ℤ
  cases : Option ℤ
  deaths : Option ℤ
  hospitalized : Option ℤ
  icu : Option ℤ
deriving DecidableEq, Repr

/-- A plot record as built by the component: the union of the computed-shape
keys (lines 176-224) and the observed-shape keys (lines 159-171).
`hasComputed` / `hasObserved` record which of the two key families the JS
object actually carries (a key family an object does not carry is not
touched by an object spread of that object; a key it carries with value
`undefined` is). Both shapes always carry `time`, `hospitalBeds` and
`ICUbeds`. -/
structure TimePoint where
  time : ℤ
  hasComputed : Bool
  hasObserved : Bool
  susceptible : Option ℤ
  infectious : Option ℤ
  severe : Option ℤ
  critical : Option ℤ
  overflow : Option ℤ
  recovered : Option ℤ
  fatality : Option ℤ
  susceptible_area : Option (ℤ × ℤ)
  infectious_area : Option (ℤ × ℤ)
  severe_area : Option (ℤ × ℤ)
  critical_area : Option (ℤ × ℤ)
  overflow_area : Option (ℤ × ℤ)
  recovered_area : Option (ℤ × ℤ)
  fatality_area : Option (ℤ × ℤ)
  cases : Option ℤ
  observedDeaths : Option ℤ
  currentHospitalized : Option ℤ
  ICU : Option ℤ
  newCases : Option ℤ
  hospitalBeds : Option ℤ
  ICUbeds : Option ℤ
deriving DecidableEq, Repr

/-- Numeric field lookup `d[k]` on a plot record, for the plain (non-band)
metric keys; any other key yields `undefined`. -/
def fieldNum (p : TimePoint) (k : String) : Option ℤ :=
  if k = "susceptible" then p.susceptible
  else if k = "infectious" then p.infectious
  else if k = "severe" then p.severe
  else if k = "critical" then p.critical
  else if k = "overflow" then p.overflow
  else if k = "recovered" then p.recovered
  else if k = "fatality" then p.fatality
  else if k = "cases" then p.cases
  else if k = "observedDeaths" then p.observedDeaths
  else if k = "currentHospitalized" then p.currentHospitalized
  else if k = "ICU" then p.ICU
  else if k = "newCases" then p.newCases
  else if k = "hospitalBeds" then p.hospitalBeds
  else if k = "ICUbeds" then p.ICUbeds
  else none

/-- Uncertainty-band lookup: maps a computed metric key to its `<key>_area`
band field; any other key yields `undefined`. -/
def fieldBand (p : TimePoint) (k : String) : Option (ℤ × ℤ) :=
  if k = "susceptible" then p.susceptible_area
  else if k = "infectious" then p.infectious_area
  else if k = "severe" then p.severe_area
  else if k = "critical" then p.critical_area
  else if k = "overflow" then p.overflow_area
  else if k = "recovered" then p.recovered_area
  else if k = "fatality" then p.fatality_area
  else none

/-- Models `caseCounts?.filter((d) => d.cases || d.deaths || d.icu || d.hospitalized)`
(source line 138): drop records whose four counts are all falsy. -/
def nonEmptyCaseCounts (caseCounts : List EmpiricalDatum) : List EmpiricalDatum :=
  caseCounts.filter fun d =>
    truthyOpt d.cases || truthyOpt d.deaths || truthyOpt d.icu || truthyOpt d.hospitalized

/-- The fixed window width `caseStep = 3` (source line 140). -/
def caseStep : Nat := 3

/-- The optional `cases` value at index `i` of the filtered sequence
(`cc[i].cases`; out-of-range access yields `none`, a state the component
never reaches because `i` ranges over indices of `cc`). -/
def casesAt (cc : List EmpiricalDatum) (i : Nat) : Option ℤ :=
  (cc[i]?).bind EmpiricalDatum.cases

/-- Models the `newCases` helper (source lines 144-149): the rolling
three-record case delta, kept only when strictly positive. -/
def newCases (cc : List EmpiricalDatum) (i : Nat) : Option ℤ :=
  if caseStep ≤ i ∧ truthyOpt (casesAt cc i) ∧ truthyOpt (casesAt cc (i - caseStep)) then
    verifyPositive ((casesAt cc i).getD 0 - (casesAt cc (i - caseStep)).getD 0)
  else
    none

/-- Models one element of the `observations` array (source lines 159-171):
the projection of the `i`-th filtered record onto the enabled observed
metrics, plus the two pass-through capacity fields. -/
def obsPointOf (enabled : List String) (nHospitalBeds nICUBeds : Option ℤ)
    (cc : List EmpiricalDatum) (i : Nat) (d : EmpiricalDatum) : TimePoint :=
  let nc := newCases cc i
  { time := d.time
    hasComputed := false
    hasObserved := true
    susceptible := none, infectious := none, severe := none, critical := none
    overflow := none, recovered := none, fatality := none
    susceptible_area := none, infectious_area := none, severe_area := none
    critical_area := none, overflow_area := none, recovered_area := none
    fatality_area := none
    cases := if enabled.contains "cases" then orUndef d.cases else none
    observedDeaths := if enabled.contains "observedDeaths" then orUndef d.deaths else none
    currentHospitalized :=
      if enabled.contains "currentHospitalized" then orUndef d.hospitalized else none
    ICU := if enabled.contains "ICU" then orUndef d.icu else none
    newCases := if enabled.contains "newCases" then nc else none
    hospitalBeds := nHospitalBeds
    ICUbeds := nICUBeds }

/-- The full `observations` array (source lines 159-171): one projected
record per filtered observation record, in order. -/
def observations (enabled : List String) (nHospitalBeds nICUBeds : Option ℤ)
    (caseCounts : List EmpiricalDatum) : List TimePoint :=
  let cc := nonEmptyCaseCounts caseCounts
  cc.enum.map fun p => obsPointOf enabled nHospitalBeds nICUBeds cc p.1 p.2

/-- Models one element of the computed part of `plotData` (source lines
176-224): the projection of `mean[i]` onto the enabled computed metrics with
rounded values, zero coerced to absent, plus the `[round(lower[i]...),
round(upper[i]...)]` bands (an array literal, hence always truthy) and the
two pass-through capacity fields.  The accesses `lower[i]` / `upper[i]`
throw in JS when out of range; that failure is surfaced as `none`. -/
def mkComputedPoint (enabled : List String) (nHospitalBeds nICUBeds : Option ℤ)
    (lower upper : List TrajectorySample) (i : Nat) (x : TrajectorySample) :
    Option TimePoint :=
  match lower[i]?, upper[i]? with
  | some lo, some hi => some
    { time := x.time
      hasComputed := true
      hasObserved := false
      susceptible :=
        if enabled.contains "susceptible" then roundOrUndef x.current.susceptible else none
      infectious :=
        if enabled.contains "infectious" then roundOrUndef x.current.infectious else none
      severe := if enabled.contains "severe" then roundOrUndef x.current.severe else none
      critical := if enabled.contains "critical" then roundOrUndef x.current.critical else none
      overflow := if enabled.contains "overflow" then roundOrUndef x.current.overflow else none
      recovered :=
        if enabled.contains "recovered" then roundOrUndef x.cumulative.recovered else none
      fatality :=
        if enabled.contains "fatality" then roundOrUndef x.cumulative.fatality else none
      susceptible_area :=
        if enabled.contains "susceptible" then
          some (jsRound lo.current.susceptible, jsRound hi.current.susceptible)
        else none
      infectious_area :=
        if enabled.contains "infectious" then
          some (jsRound lo.current.infectious, jsRound hi.current.infectious)
        else none
      severe_area :=
        if enabled.contains "severe" then
          some (jsRound lo.current.severe, jsRound hi.current.severe)
        else none
      critical_area :=
        if enabled.contains "critical" then
          some (jsRound lo.current.critical, jsRound hi.current.critical)
        else none
      overflow_area :=
        if enabled.contains "overflow" then
          some (jsRound lo.current.overflow, jsRound hi.current.overflow)
        else none
      recovered_area :=
        if enabled.contains "recovered" then
          some (jsRound lo.cumulative.recovered, jsRound hi.cumulative.recovered)
        else none
      fatality_area :=
        if enabled.contains "fatality" then
          some (jsRound lo.cumulative.fatality, jsRound hi.cumulative.fatality)
        else none
      cases := none, observedDeaths := none, currentHospitalized := none
      ICU := none, newCases := none
      hospitalBeds := nHospitalBeds
      ICUbeds := nICUBeds }
  | _, _ => none

/-- The computed part of `plotData` (lines 176-224): the per-index map over
`data.trajectory.mean`, with `i` threaded explicitly; fails (JS: throws)
when `lower` or `upper` lacks an index of `mean`. -/
def buildComputed (enabled : List String) (nHospitalBeds nICUBeds : Option ℤ)
    (lower upper : List TrajectorySample) : Nat → List TrajectorySample →
    Option (List TimePoint)
  | _, [] => some []
  | i, x :: xs => do
    let p ← mkComputedPoint enabled nHospitalBeds nICUBeds lower upper i x
    let rest ← buildComputed enabled nHospitalBeds nICUBeds lower upper (i + 1) xs
    pure (p :: rest)

/-- The full `plotData` array (lines 176-227): computed points followed by
the `observations` points. -/
def plotDataAll (enabled : List String) (hospitalBedsParam iCUBedsParam : ℤ)
    (mean lower upper : List TrajectorySample) (caseCounts : List EmpiricalDatum) :
    Option (List TimePoint) :=
  (buildComputed enabled (verifyPositive hospitalBedsParam) (verifyPositive iCUBedsParam)
      lower upper 0 mean).map
    (fun pc => pc ++
      observations enabled (verifyPositive hospitalBedsParam) (verifyPositive iCUBedsParam)
        caseCounts)

/-- Ascending-time ordering of plot records: the comparator of the JS sort
on line 233 orders by `time`. -/
def timeLE (a b : TimePoint) : Prop := a.time ≤ b.time

instance : DecidableRel timeLE := fun a b => inferInstanceAs (Decidable (a.time ≤ b.time))

instance : IsTotal TimePoint timeLE := ⟨fun a b => Int.le_total a.time b.time⟩

instance : IsTrans TimePoint timeLE := ⟨fun _ _ _ h h' => le_trans h h'⟩

/-- Models `plotData.sort((a, b) => (a.time > b.time ? 1 : -1))` (line 233):
the stable ascending sort by `time`. -/
def sortByTime (ps : List TimePoint) : List TimePoint :=
  ps.insertionSort timeLE

/-- Models the JS object spread `{...acc, ...d}` of line 237-240: the result
carries the union of both key families; every key `d` carries takes `d`'s
value (even when that value is `undefined`), keys only `acc` carries keep
`acc`'s value.  Both shapes carry `time`, `hospitalBeds` and `ICUbeds`, so
those always come from `d`. -/
def spreadMerge (acc d : TimePoint) : TimePoint :=
  { time := d.time
    hasComputed := acc.hasComputed || d.hasComputed
    hasObserved := acc.hasObserved || d.hasObserved
    susceptible := if d.hasComputed then d.susceptible else acc.susceptible
    infectious := if d.hasComputed then d.infectious else acc.infectious
    severe := if d.hasComputed then d.severe else acc.severe
    critical := if d.hasComputed then d.critical else acc.critical
    overflow := if d.hasComputed then d.overflow else acc.overflow
    recovered := if d.hasComputed then d.recovered else acc.recovered
    fatality := if d.hasComputed then d.fatality else acc.fatality
    susceptible_area := if d.hasComputed then d.susceptible_area else acc.susceptible_area
    infectious_area := if d.hasComputed then d.infectious_area else acc.infectious_area
    severe_area := if d.hasComputed then d.severe_area else acc.severe_area
    critical_area := if d.hasComputed then d.critical_area else acc.critical_area
    overflow_area := if d.hasComputed then d.overflow_area else acc.overflow_area
    recovered_area := if d.hasComputed then d.recovered_area else acc.recovered_area
    fatality_area := if d.hasComputed then d.fatality_area else acc.fatality_area
    cases := if d.hasObserved then d.cases else acc.cases
    observedDeaths := if d.hasObserved then d.observedDeaths else acc.observedDeaths
    currentHospitalized :=
      if d.hasObserved then d.currentHospitalized else acc.currentHospitalized
    ICU := if d.hasObserved then d.ICU else acc.ICU
    newCases := if d.hasObserved then d.newCases else acc.newCases
    hospitalBeds := d.hospitalBeds
    ICUbeds := d.ICUbeds }

/-- One iteration of the `plotData.forEach` loop of lines 235-244, with the
accumulator list kept in reverse (the loop mutates / pushes at the end; the
head of the reversed list is the "last" element of the JS array). -/
def consolidateStep (acc : List TimePoint) (d : TimePoint) : List TimePoint :=
  match acc with
  | [] => [d]
  | last :: rest =>
    if d.time = last.time then spreadMerge last d :: rest else d :: last :: rest

/-- Models `consolidatedPlotData` (lines 234-244): start from
`[plotData[0]]` and fold the loop body over the whole (sorted) array.  The
component only reaches this code with a non-empty array (line 229 returns
early otherwise); the empty case is mapped to the empty series. -/
def consolidatedPlotData (ps : List TimePoint) : List TimePoint :=
  match ps with
  | [] => []
  | p :: _ => (ps.foldl consolidateStep [p]).reverse

/-- The complete merge pipeline: build `plotData`, sort by time, consolidate
same-timestamp records. -/
def mergedSeries (enabled : List String) (hospitalBedsParam iCUBedsParam : ℤ)
    (mean lower upper : List TrajectorySample) (caseCounts : List EmpiricalDatum) :
    Option (List TimePoint) :=
  (plotDataAll enabled hospitalBedsParam iCUBedsParam mean lower upper caseCounts).map
    (fun ps => consolidatedPlotData (sortByTime ps))

/-- Models `dataKeys` (line 247): the enabled keys without the two
capacity-reference keys. -/
def dataKeysOf (enabled : List String) : List String :=
  enabled.filter fun k => !(k == "hospitalBeds") && !(k == "ICUbeds")

/-- Models lodash `_.max` over a JS array of possibly-`undefined` numbers:
`undefined` entries are skipped; an empty or all-`undefined` array yields
`undefined`.  (lodash scans left to right keeping the running maximum; since
`max` is associative and commutative the resulting value does not depend on
the scan direction, and the recursion below computes the same maximum.) -/
def lodashMax : List (Option ℤ) → Option ℤ
  | [] => none
  | none :: t => lodashMax t
  | some a :: t =>
    match lodashMax t with
    | none => some a
    | some m => some (max a m)

/-- Models `yDataMax` (line 248): the maximum over consolidated records of
the maximum of the enabled non-reference fields of each record. -/
def yDataMax (enabled : List String) (consolidated : List TimePoint) : Option ℤ :=
  lodashMax (consolidated.map fun d => lodashMax ((dataKeysOf enabled).map (fieldNum d)))

/-- The value-axis upper bound before the renderer applies it: `yDataMax`
multiplied by the padding factor `1.1` (line 424), absent when `yDataMax`
is. -/
def paddedYMax (enabled : List String) (consolidated : List TimePoint) : Option ℚ :=
  (yDataMax enabled consolidated).map fun v => (v : ℚ) * (11 / 10)

/-- Modelled from the spec (§4.5 DomainCalculator): the maximum value over
all TimePoints restricted to metric fields that are enabled and not tagged
reference (the two capacity keys).  This is the spec-side description that
`yDataMax` is checked against. -/
def qualifyingValues (enabled : List String) (consolidated : List TimePoint) : List ℤ :=
  consolidated.flatMap fun d => (dataKeysOf enabled).filterMap (fieldNum d)

/-- Models `_.minBy(plotData, 'time')!.time` (line 262): the minimum
timestamp, absent on an empty array. -/
def tMinOf (ps : List TimePoint) : Option ℤ := (ps.map TimePoint.time).min?

/-- Models `_.maxBy(plotData, 'time')!.time` (line 263): the maximum
timestamp, absent on an empty array. -/
def tMaxOf (ps : List TimePoint) : Option ℤ := (ps.map TimePoint.time).max?

/-- One mitigation interval as consumed by the overlay (lines 381-394):
`timeRangeTMin` / `timeRangeTMax` are the `getTime()` values of the range
bounds. -/
structure MitigationInterval where
  id : String
  name : String
  color : String
  timeRangeTMin : ℤ
  timeRangeTMax : ℤ
  mitigationValue : ℚ
deriving DecidableEq, Repr

/-- The clamped coordinates handed to the overlay rectangle for one
interval. -/
structure ClampedArea where
  x1 : ℤ
  x2 : ℤ
  y1 : ℚ
  y2 : ℚ
  fill : String
  labelValue : String
deriving DecidableEq, Repr

/-- Models lodash `_.clamp(n, lo, hi)` on integers: the upper bound is
applied first, then the lower bound. -/
def lodashClamp (n lo hi : ℤ) : ℤ := max lo (min n hi)

/-- Models lodash `_.clamp(n, lo, hi)` on rationals. -/
def lodashClampQ (n lo hi : ℚ) : ℚ := max lo (min n hi)

/-- Models the `ReferenceArea` props of lines 382-393: both time bounds
clamped into `[tMin, tMax]`, the strength clamped into `[0, 100]`, the rest
copied from the interval; the input interval is not modified. -/
def referenceAreaProps (iv : MitigationInterval) (tMin tMax : ℤ) : ClampedArea :=
  { x1 := lodashClamp iv.timeRangeTMin tMin tMax
    x2 := lodashClamp iv.timeRangeTMax tMin tMax
    y1 := 0
    y2 := lodashClampQ iv.mitigationValue 0 100
    fill := iv.color
    labelValue := iv.name }

/-! ### Small helper lemmas -/

/-- The gated rounded value written by the normalizer, rephrased as a single
conjunction: present exactly when the gate is open and the rounded value is
non-zero. -/
theorem gate_roundOrUndef (c : Bool) (q : ℚ) :
    (if c = true then roundOrUndef q else none) =
      if c = true ∧ jsRound q ≠ 0 then some (jsRound q) else none := by
  unfold roundOrUndef
  by_cases hc : c = true <;> by_cases hz : jsRound q = 0 <;> simp [hc, hz]

theorem contains_eq_false_of_not_mem {l : List String} {a : String} (h : a ∉ l) :
    l.contains a = false := by
  simp [h]

/-- The embedding's `jsRound` agrees with the ambient floor of `q + 1/2`. -/
theorem jsRound_eq_intFloor (q : ℚ) : jsRound q = ⌊q + 1 / 2⌋ := by
  rw [jsRound, Rat.floor_def', ← Rat.floor_def]

theorem jsRound_intCast (n : ℤ) : jsRound (n : ℚ) = n := by
  rw [jsRound_eq_intFloor, Int.floor_eq_iff]
  constructor <;> linarith

theorem jsRound_ofNat (n : ℕ) [n.AtLeastTwo] :
    jsRound (OfNat.ofNat n : ℚ) = OfNat.ofNat n := by
  exact jsRound_intCast (OfNat.ofNat n)

theorem jsRound_zero : jsRound 0 = 0 := by
  have h := jsRound_intCast 0
  push_cast at h
  exact h

theorem jsRound_one : jsRound 1 = 1 := by
  have h := jsRound_intCast 1
  push_cast at h
  exact h

theorem jsRound_fifth : jsRound (1 / 5) = 0 := by
  rw [jsRound_eq_intFloor, Int.floor_eq_iff]
  norm_num

theorem jsRound_inv_five : jsRound ((5 : ℚ)⁻¹) = 0 := by
  have h : ((5 : ℚ)⁻¹) = 1 / 5 := by norm_num
  rw [h, jsRound_fifth]

theorem getElem?_eq_some_of_lt {α : Type} (l : List α) (i : Nat) (h : i < l.length) :
    ∃ a, l[i]? = some a := ⟨l[i], List.getElem?_eq_getElem h⟩

/-! ### C3: the rolling new-case window -/

/-- C3 (counterexample): the claim says `newCases(cc, i)` is defined whenever
`i ≥ 3`, both `cc[i].cases` and `cc[i-3].cases` are defined and their
difference is positive.  With `cc[0].cases = 0` (defined but falsy) and
`cc[3].cases = 5` the claimed condition holds with difference `5 > 0`, yet
the code's truthiness test rejects the zero-valued baseline and yields
`undefined`. -/
theorem newCases_zero_cases_counterexample :
    (3 ≤ 3 ∧
      (casesAt [⟨0, some 0, some 1, none, none⟩, ⟨1, some 1, none, none, none⟩,
        ⟨2, some 1, none, none, none⟩, ⟨3, some 5, none, none, none⟩] 3).isSome = true ∧
      (casesAt [⟨0, some 0, some 1, none, none⟩, ⟨1, some 1, none, none, none⟩,
        ⟨2, some 1, none, none, none⟩, ⟨3, some 5, none, none, none⟩] 0).isSome = true ∧
      0 < (casesAt [⟨0, some 0, some 1, none, none⟩, ⟨1, some 1, none, none, none⟩,
        ⟨2, some 1, none, none, none⟩, ⟨3, some 5, none, none, none⟩] 3).getD 0 -
        (casesAt [⟨0, some 0, some 1, none, none⟩, ⟨1, some 1, none, none, none⟩,
          ⟨2, some 1, none, none, none⟩, ⟨3, some 5, none, none, none⟩] 0).getD 0) ∧
    newCases [⟨0, some 0, some 1, none, none⟩, ⟨1, some 1, none, none, none⟩,
      ⟨2, some 1, none, none, none⟩, ⟨3, some 5, none, none, none⟩] 3 = none := by
  decide

/-- C3 (amended): for a valid index `i` of the filtered sequence,
`newCases cc i` is defined iff `i ≥ 3`, both `cc[i].cases` and
`cc[i-3].cases` are *truthy* (defined and non-zero), and their difference is
strictly positive, in which case it equals that difference. -/
theorem newCases_defined_iff (cc : List EmpiricalDatum) (i : Nat) (_h : i < cc.length) :
    ((newCases cc i).isSome = true ↔
      caseStep ≤ i ∧ truthyOpt (casesAt cc i) = true ∧
        truthyOpt (casesAt cc (i - caseStep)) = true ∧
        0 < (casesAt cc i).getD 0 - (casesAt cc (i - caseStep)).getD 0) ∧
    ∀ v, newCases cc i = some v →
      v = (casesAt cc i).getD 0 - (casesAt cc (i - caseStep)).getD 0 := by
  unfold newCases verifyPositive
  split_ifs with h1 h2
  · simp [h1, h2]
  · simp_all
  · simp_all [not_and_or]

/-! ### C5 / C6: the normalizer's point values and bands -/

/-- C5 (confirmed): for every trajectory index, the point value of each
computed metric is stored iff the metric is enabled and the compartment
total of `mean[i]`, rounded to nearest integer, is non-zero; a rounded value
of zero and a disabled metric both yield an absent field. -/
theorem plotData_value_iff_enabled_nonzero (enabled : List String)
    (nHB nICU : Option ℤ) (lower upper : List TrajectorySample) (i : Nat)
    (x : TrajectorySample) (p : TimePoint)
    (hp : mkComputedPoint enabled nHB nICU lower upper i x = some p) :
    p.susceptible = (if "susceptible" ∈ enabled ∧ jsRound x.current.susceptible ≠ 0 then
      some (jsRound x.current.susceptible) else none) ∧
    p.infectious = (if "infectious" ∈ enabled ∧ jsRound x.current.infectious ≠ 0 then
      some (jsRound x.current.infectious) else none) ∧
    p.severe = (if "severe" ∈ enabled ∧ jsRound x.current.severe ≠ 0 then
      some (jsRound x.current.severe) else none) ∧
    p.critical = (if "critical" ∈ enabled ∧ jsRound x.current.critical ≠ 0 then
      some (jsRound x.current.critical) else none) ∧
    p.overflow = (if "overflow" ∈ enabled ∧ jsRound x.current.overflow ≠ 0 then
      some (jsRound x.current.overflow) else none) ∧
    p.recovered = (if "recovered" ∈ enabled ∧ jsRound x.cumulative.recovered ≠ 0 then
      some (jsRound x.cumulative.recovered) else none) ∧
    p.fatality = (if "fatality" ∈ enabled ∧ jsRound x.cumulative.fatality ≠ 0 then
      some (jsRound x.cumulative.fatality) else none) := by
  unfold mkComputedPoint at hp
  rcases hlo : lower[i]? with _ | lo <;> rcases hhi : upper[i]? with _ | hi <;>
    rw [hlo, hhi] at hp <;> simp only [] at hp
  · cases hp
  · cases hp
  · cases hp
  · cases hp
    refine ⟨?_, ?_, ?_, ?_, ?_, ?_, ?_⟩
    all_goals simp only [gate_roundOrUndef]
    all_goals simp

/-- C6 (counterexample): the claim says the uncertainty band is stored only
when the rounded mean value is non-zero.  With a mean susceptible total of
`1/5` (rounds to `0`) and bounds `0` and `1`, the point value is absent but
the band `[0, 1]` is stored: the source's `[...] || undefined` guard never
fires because a JS array literal is always truthy. -/
theorem band_stored_when_round_zero_counterexample :
    (mkComputedPoint ["susceptible"] none none
        [⟨7, ⟨0, 0, 0, 0, 0⟩, ⟨0, 0⟩⟩] [⟨7, ⟨1, 0, 0, 0, 0⟩, ⟨0, 0⟩⟩] 0
        ⟨7, ⟨1 / 5, 0, 0, 0, 0⟩, ⟨0, 0⟩⟩).map
      (fun p => (p.susceptible, p.susceptible_area)) = some (none, some (0, 1)) := by
  simp [mkComputedPoint, roundOrUndef, jsRound_fifth, jsRound_inv_five, jsRound_zero, jsRound_one]

/-- C6 (amended): the band `[round(lower[i].metric), round(upper[i].metric)]`
is stored iff the metric is enabled, independently of the rounded mean
value (the array literal in the source is always truthy, so the
`|| undefined` fallback is dead). -/
theorem band_iff_enabled (enabled : List String) (nHB nICU : Option ℤ)
    (lower upper : List TrajectorySample) (i : Nat) (x lo hi : TrajectorySample)
    (p : TimePoint) (hlo : lower[i]? = some lo) (hhi : upper[i]? = some hi)
    (hp : mkComputedPoint enabled nHB nICU lower upper i x = some p) :
    p.susceptible_area = (if "susceptible" ∈ enabled then
      some (jsRound lo.current.susceptible, jsRound hi.current.susceptible) else none) ∧
    p.infectious_area = (if "infectious" ∈ enabled then
      some (jsRound lo.current.infectious, jsRound hi.current.infectious) else none) ∧
    p.severe_area = (if "severe" ∈ enabled then
      some (jsRound lo.current.severe, jsRound hi.current.severe) else none) ∧
    p.critical_area = (if "critical" ∈ enabled then
      some (jsRound lo.current.critical, jsRound hi.current.critical) else none) ∧
    p.overflow_area = (if "overflow" ∈ enabled then
      some (jsRound lo.current.overflow, jsRound hi.current.overflow) else none) ∧
    p.recovered_area = (if "recovered" ∈ enabled then
      some (jsRound lo.cumulative.recovered, jsRound hi.cumulative.recovered) else none) ∧
    p.fatality_area = (if "fatality" ∈ enabled then
      some (jsRound lo.cumulative.fatality, jsRound hi.cumulative.fatality) else none) := by
  unfold mkComputedPoint at hp
  rw [hlo, hhi] at hp
  simp only [Option.some.injEq] at hp
  cases hp
  refine ⟨?_, ?_, ?_, ?_, ?_, ?_, ?_⟩ <;> simp

/-! ### C1: same-timestamp consolidation loses defined fields -/

/-- C1 (evidence of the defect): two observation records share timestamp 0;
the first carries `cases = 5` (and its projection indeed has `cases = some 5`),
the second carries only `deaths = 3`.  The spread-merge of the consolidation
loop copies the second record's `cases` key even though its value is
`undefined`, so the consolidated point ends with `cases` absent: the defined
value `5` of the earlier point is erased, contradicting the field-wise-union
contract. -/
theorem consolidation_erases_defined_cases :
    (observations dataPointsValues (verifyPositive 0) (verifyPositive 0)
        [⟨0, some 5, some 0, some 0, some 0⟩, ⟨0, some 0, some 3, some 0, some 0⟩]).map
      (fun p => (p.time, p.cases, p.observedDeaths)) =
        [(0, some 5, none), (0, none, some 3)] ∧
    (mergedSeries dataPointsValues 0 0 [] [] []
        [⟨0, some 5, some 0, some 0, some 0⟩, ⟨0, some 0, some 3, some 0, some 0⟩]).map
      (fun l => l.map fun q => (q.cases, q.observedDeaths)) = some [(none, some 3)] := by
  decide

/-! ### C9: the all-falsy filter -/

/-- C9 (confirmed): every record surviving `nonEmptyCaseCounts` has at least
one truthy count among cases, deaths, icu, hospitalized; an all-falsy record
is dropped; and the `observations` output is indexed over the filtered
sequence (same length, `i`-th time point taken from the `i`-th filtered
record), so a dropped record contributes no TimePoint. -/
theorem filter_drops_allFalsy (caseCounts : List EmpiricalDatum)
    (enabled : List String) (nHB nICU : Option ℤ) :
    (∀ d ∈ nonEmptyCaseCounts caseCounts,
      truthyOpt d.cases = true ∨ truthyOpt d.deaths = true ∨ truthyOpt d.icu = true ∨
        truthyOpt d.hospitalized = true) ∧
    (∀ d ∈ caseCounts,
      truthyOpt d.cases = false → truthyOpt d.deaths = false → truthyOpt d.icu = false →
        truthyOpt d.hospitalized = false → d ∉ nonEmptyCaseCounts caseCounts) ∧
    (observations enabled nHB nICU caseCounts).length =
      (nonEmptyCaseCounts caseCounts).length ∧
    ∀ i : Nat, ((observations enabled nHB nICU caseCounts)[i]?).map TimePoint.time =
      ((nonEmptyCaseCounts caseCounts)[i]?).map EmpiricalDatum.time := by
  refine ⟨?_, ?_, ?_, ?_⟩
  · intro d hd
    simp only [nonEmptyCaseCounts, List.mem_filter] at hd
    rcases hd with ⟨-, hd⟩
    simpa [or_assoc] using hd
  · intro d _ h1 h2 h3 h4 hmem
    simp only [nonEmptyCaseCounts, List.mem_filter] at hmem
    rcases hmem with ⟨-, hd⟩
    simp [h1, h2, h3, h4] at hd
  · simp [observations]
  · intro i
    simp only [observations, List.getElem?_map, List.getElem?_enum, Option.map_map]
    cases (nonEmptyCaseCounts caseCounts)[i]? <;> simp [obsPointOf]

/-! ### C10: totality of the normalizer under index alignment -/

theorem buildComputed_some (enabled : List String) (nHB nICU : Option ℤ)
    (lower upper : List TrajectorySample) :
    ∀ (xs : List TrajectorySample) (i : Nat),
      i + xs.length ≤ lower.length → i + xs.length ≤ upper.length →
      ∃ l, buildComputed enabled nHB nICU lower upper i xs = some l ∧
        l.length = xs.length := by
  intro xs
  induction xs with
  | nil => exact fun i _ _ => ⟨[], rfl, rfl⟩
  | cons x xs ih =>
    intro i hl hu
    simp only [List.length_cons] at hl hu
    obtain ⟨lo, hlo⟩ := getElem?_eq_some_of_lt lower i (by omega)
    obtain ⟨hi2, hhi⟩ := getElem?_eq_some_of_lt upper i (by omega)
    obtain ⟨rest, hrest, hlen⟩ := ih (i + 1) (by omega) (by omega)
    have hmk : ∃ p, mkComputedPoint enabled nHB nICU lower upper i x = some p := by
      unfold mkComputedPoint
      rw [hlo, hhi]
      exact ⟨_, rfl⟩
    obtain ⟨p, hp⟩ := hmk
    refine ⟨p :: rest, ?_, ?_⟩
    · simp [buildComputed, hp, hrest]
    · simp [hlen]

/-- C10 (confirmed): when the `mean`, `lower` and `upper` arrays have equal
length, the per-index normalization is total: `lower[i]` and `upper[i]` are
in bounds for every index of `mean`, the computed part of `plotData` is
produced in full (one record per trajectory index), and the whole pipeline
succeeds. -/
theorem plotData_total_of_aligned (enabled : List String) (hbP icuP : ℤ)
    (mean lower upper : List TrajectorySample) (caseCounts : List EmpiricalDatum)
    (hl : lower.length = mean.length) (hu : upper.length = mean.length) :
    ∃ pc, buildComputed enabled (verifyPositive hbP) (verifyPositive icuP)
        lower upper 0 mean = some pc ∧
      pc.length = mean.length ∧
      ∃ m, mergedSeries enabled hbP icuP mean lower upper caseCounts = some m := by
  obtain ⟨pc, hpc, hlen⟩ :=
    buildComputed_some enabled (verifyPositive hbP) (verifyPositive icuP) lower upper mean 0
      (by omega) (by omega)
  refine ⟨pc, hpc, hlen,
    consolidatedPlotData (sortByTime
      (pc ++ observations enabled (verifyPositive hbP) (verifyPositive icuP) caseCounts)), ?_⟩
  simp [mergedSeries, plotDataAll, hpc]

/-! ### C2: the consolidated series is strictly ascending and
timestamp-unique -/

theorem spreadMerge_time (a d : TimePoint) : (spreadMerge a d).time = d.time := rfl

/-- Invariant of the consolidation fold: starting from a reversed
accumulator with strictly descending times whose head bounds the (sorted)
remaining input from below, the fold keeps the accumulator strictly
descending, accumulates exactly the timestamps of input and accumulator,
and ends with a head whose time bounds everything. -/
theorem consolidateFold_spec :
    ∀ (l : List TimePoint) (a : TimePoint) (rest : List TimePoint),
      l.Pairwise timeLE →
      (∀ x ∈ l, a.time ≤ x.time) →
      (a :: rest).Pairwise (fun u v => v.time < u.time) →
      ∃ b brest, l.foldl consolidateStep (a :: rest) = b :: brest ∧
        (b :: brest).Pairwise (fun u v => v.time < u.time) ∧
        (∀ t, t ∈ (b :: brest).map TimePoint.time ↔
          t ∈ l.map TimePoint.time ∨ t ∈ (a :: rest).map TimePoint.time) ∧
        (∀ x ∈ l, x.time ≤ b.time) ∧ a.time ≤ b.time := by
  intro l
  induction l with
  | nil =>
    intro a rest _ _ hdesc
    exact ⟨a, rest, rfl, hdesc, by simp, by simp, le_refl _⟩
  | cons d ds ih =>
    intro a rest hsort hbound hdesc
    have hdbound : ∀ x ∈ ds, d.time ≤ x.time := (List.pairwise_cons.mp hsort).1
    have hsort' : ds.Pairwise timeLE := (List.pairwise_cons.mp hsort).2
    have had : a.time ≤ d.time := hbound d (by simp)
    rw [List.foldl_cons]
    by_cases heq : d.time = a.time
    · have hstep : consolidateStep (a :: rest) d = spreadMerge a d :: rest := by
        simp [consolidateStep, heq]
      rw [hstep]
      have hmt : (spreadMerge a d).time = a.time := heq
      have hdesc' : (spreadMerge a d :: rest).Pairwise (fun u v => v.time < u.time) := by
        rw [List.pairwise_cons] at hdesc ⊢
        exact ⟨fun v hv => hmt ▸ hdesc.1 v hv, hdesc.2⟩
      obtain ⟨b, brest, hfold, hdesc2, hmem, hub, hab⟩ :=
        ih (spreadMerge a d) rest hsort'
          (fun x hx => by rw [hmt, ← heq]; exact hdbound x hx) hdesc'
      refine ⟨b, brest, hfold, hdesc2, ?_, ?_, ?_⟩
      · intro t
        rw [hmem t]
        simp only [List.map_cons, List.mem_cons, hmt]
        constructor
        · rintro (h | h) <;> [exact Or.inl (Or.inr h);
            rcases h with h | h]
          · exact Or.inr (Or.inl h)
          · exact Or.inr (Or.inr h)
        · rintro ((h | h) | (h | h))
          · exact Or.inr (Or.inl (heq ▸ h))
          · exact Or.inl h
          · exact Or.inr (Or.inl h)
          · exact Or.inr (Or.inr h)
      · intro x hx
        rcases List.mem_cons.mp hx with h | h
        · subst h
          calc x.time = (spreadMerge a x).time := rfl
            _ ≤ b.time := hab
        · exact hub x h
      · rw [← hmt]
        exact hab
    · have hlt : a.time < d.time := lt_of_le_of_ne had (fun h => heq h.symm)
      have hstep : consolidateStep (a :: rest) d = d :: a :: rest := by
        simp [consolidateStep, heq]
      rw [hstep]
      have hdesc' : (d :: a :: rest).Pairwise (fun u v => v.time < u.time) := by
        rw [List.pairwise_cons]
        refine ⟨?_, hdesc⟩
        intro v hv
        rcases List.mem_cons.mp hv with h | h
        · exact h ▸ hlt
        · exact lt_trans ((List.pairwise_cons.mp hdesc).1 v h) hlt
      obtain ⟨b, brest, hfold, hdesc2, hmem, hub, hdb⟩ :=
        ih d (a :: rest) hsort' hdbound hdesc'
      refine ⟨b, brest, hfold, hdesc2, ?_, ?_, ?_⟩
      · intro t
        rw [hmem t]
        simp only [List.map_cons, List.mem_cons]
        tauto
      · intro x hx
        rcases List.mem_cons.mp hx with h | h
        · exact h ▸ hdb
        · exact hub x h
      · exact le_trans (le_of_lt hlt) hdb

/-- Consolidating a time-sorted record list yields strictly ascending times
covering exactly the input's timestamps. -/
theorem consolidated_sorted (ps : List TimePoint) (hs : ps.Pairwise timeLE) :
    (consolidatedPlotData ps).Pairwise (fun u v => u.time < v.time) ∧
    ∀ t, t ∈ (consolidatedPlotData ps).map TimePoint.time ↔
      t ∈ ps.map TimePoint.time := by
  cases ps with
  | nil => simp [consolidatedPlotData]
  | cons p rest =>
    have hbound : ∀ x ∈ p :: rest, p.time ≤ x.time := by
      intro x hx
      rcases List.mem_cons.mp hx with h | h
      · exact h ▸ le_refl _
      · exact (List.pairwise_cons.mp hs).1 x h
    obtain ⟨b, brest, hfold, hdesc, hmem, -, -⟩ :=
      consolidateFold_spec (p :: rest) p [] hs hbound (by simp)
    have hcon : consolidatedPlotData (p :: rest) = (b :: brest).reverse := by
      rw [consolidatedPlotData, hfold]
    constructor
    · rw [hcon, List.pairwise_reverse]
      exact hdesc
    · intro t
      rw [hcon, List.map_reverse, List.mem_reverse, hmem t]
      simp
      tauto

/-- C2 (confirmed): for every input, the merged series produced by
concatenating computed and observed points, sorting by timestamp and
consolidating is strictly ascending in timestamp (hence duplicate-free),
and carries exactly one TimePoint for each distinct timestamp occurring in
the concatenated input `plotData`. -/
theorem mergedSeries_sorted_unique (enabled : List String) (hbP icuP : ℤ)
    (mean lower upper : List TrajectorySample) (caseCounts : List EmpiricalDatum)
    (ps l : List TimePoint)
    (hps : plotDataAll enabled hbP icuP mean lower upper caseCounts = some ps)
    (hl : mergedSeries enabled hbP icuP mean lower upper caseCounts = some l) :
    l.Pairwise (fun u v => u.time < v.time) ∧
    (l.map TimePoint.time).Nodup ∧
    ∀ t, t ∈ l.map TimePoint.time ↔ t ∈ ps.map TimePoint.time := by
  have hleq : l = consolidatedPlotData (sortByTime ps) := by
    rw [mergedSeries, hps] at hl
    simpa using hl.symm
  subst hleq
  have hsorted : (sortByTime ps).Pairwise timeLE :=
    List.sorted_insertionSort timeLE ps
  obtain ⟨h1, h2⟩ := consolidated_sorted _ hsorted
  refine ⟨h1, ?_, ?_⟩
  · exact List.pairwise_map.mpr (h1.imp fun h => ne_of_lt h)
  · intro t
    rw [h2 t]
    have hperm : List.Perm (sortByTime ps) ps := List.perm_insertionSort timeLE ps
    exact (hperm.map TimePoint.time).mem_iff

/-! ### C4: toggling a metric off removes it everywhere -/

/-- C4 (counterexample): the capacity field is a pass-through, not gated by
the enabled set.  With `hospitalBeds` removed from the default enabled list
(the single-splice legend toggle) and a positive capacity of 10, the merged
series still carries `hospitalBeds = 10` on its TimePoint. -/
theorem toggle_hospitalBeds_still_present :
    ("hospitalBeds" ∈ dataPointsValues.erase "hospitalBeds") = False ∧
    (mergedSeries (dataPointsValues.erase "hospitalBeds") 10 0 [] [] []
        [⟨0, some 5, none, none, none⟩]).map
      (fun l => l.map fun q => fieldNum q "hospitalBeds") = some [some 10] := by
  constructor
  · simp [dataPointsValues]
  · decide

theorem foldl_consolidateStep_preserve (P : TimePoint → Prop)
    (hP : ∀ a b, P a → P b → P (spreadMerge a b)) :
    ∀ (l acc : List TimePoint), (∀ x ∈ l, P x) → (∀ x ∈ acc, P x) →
      ∀ y ∈ l.foldl consolidateStep acc, P y := by
  intro l
  induction l with
  | nil => exact fun acc _ hacc y hy => hacc y hy
  | cons d ds ih =>
    intro acc hl hacc
    rw [List.foldl_cons]
    apply ih
    · exact fun x hx => hl x (List.mem_cons_of_mem _ hx)
    · intro x hx
      have hd : P d := hl d (by simp)
      cases acc with
      | nil =>
        simp only [consolidateStep, List.mem_singleton] at hx
        exact hx ▸ hd
      | cons last rest =>
        have hlast : P last := hacc last (by simp)
        by_cases heq : d.time = last.time
        · simp only [consolidateStep, if_pos heq, List.mem_cons] at hx
          rcases hx with h | h
          · exact h ▸ hP last d hlast hd
          · exact hacc x (List.mem_cons_of_mem _ h)
        · simp only [consolidateStep, if_neg heq, List.mem_cons] at hx
          rcases hx with h | h
          · exact h ▸ hd
          · exact hacc x (List.mem_cons.mpr h)

theorem consolidatedPlotData_preserve (P : TimePoint → Prop)
    (hP : ∀ a b, P a → P b → P (spreadMerge a b))
    (ps : List TimePoint) (h : ∀ x ∈ ps, P x) :
    ∀ y ∈ consolidatedPlotData ps, P y := by
  cases ps with
  | nil => simp [consolidatedPlotData]
  | cons p rest =>
    intro y hy
    rw [consolidatedPlotData, List.mem_reverse] at hy
    refine foldl_consolidateStep_preserve P hP (p :: rest) [p] h ?_ y hy
    intro x hx
    rw [List.mem_singleton] at hx
    exact hx ▸ h p (by simp)

/-- Each numeric field of a spread-merge is copied from one of the two
operands (which one depends on the key family and the shapes of `b`). -/
theorem fieldNum_spreadMerge_cases (a b : TimePoint) (key : String) :
    fieldNum (spreadMerge a b) key = fieldNum a key ∨
    fieldNum (spreadMerge a b) key = fieldNum b key := by
  rcases eq_or_ne key "susceptible" with h | h1
  · subst h; simp [fieldNum, spreadMerge]; cases hc : b.hasComputed <;> simp [hc]
  rcases eq_or_ne key "infectious" with h | h2
  · subst h; simp [fieldNum, spreadMerge]; cases hc : b.hasComputed <;> simp [hc]
  rcases eq_or_ne key "severe" with h | h3
  · subst h; simp [fieldNum, spreadMerge]; cases hc : b.hasComputed <;> simp [hc]
  rcases eq_or_ne key "critical" with h | h4
  · subst h; simp [fieldNum, spreadMerge]; cases hc : b.hasComputed <;> simp [hc]
  rcases eq_or_ne key "overflow" with h | h5
  · subst h; simp [fieldNum, spreadMerge]; cases hc : b.hasComputed <;> simp [hc]
  rcases eq_or_ne key "recovered" with h | h6
  · subst h; simp [fieldNum, spreadMerge]; cases hc : b.hasComputed <;> simp [hc]
  rcases eq_or_ne key "fatality" with h | h7
  · subst h; simp [fieldNum, spreadMerge]; cases hc : b.hasComputed <;> simp [hc]
  rcases eq_or_ne key "cases" with h | h8
  · subst h; simp [fieldNum, spreadMerge]; cases hc : b.hasObserved <;> simp [hc]
  rcases eq_or_ne key "observedDeaths" with h | h9
  · subst h; simp [fieldNum, spreadMerge]; cases hc : b.hasObserved <;> simp [hc]
  rcases eq_or_ne key "currentHospitalized" with h | h10
  · subst h; simp [fieldNum, spreadMerge]; cases hc : b.hasObserved <;> simp [hc]
  rcases eq_or_ne key "ICU" with h | h11
  · subst h; simp [fieldNum, spreadMerge]; cases hc : b.hasObserved <;> simp [hc]
  rcases eq_or_ne key "newCases" with h | h12
  · subst h; simp [fieldNum, spreadMerge]; cases hc : b.hasObserved <;> simp [hc]
  rcases eq_or_ne key "hospitalBeds" with h | h13
  · subst h; simp [fieldNum, spreadMerge]
  rcases eq_or_ne key "ICUbeds" with h | h14
  · subst h; simp [fieldNum, spreadMerge]
  simp [fieldNum, h1, h2, h3, h4, h5, h6, h7, h8, h9, h10, h11, h12, h13, h14]

/-- Each band field of a spread-merge is copied from one of the two
operands. -/
theorem fieldBand_spreadMerge_cases (a b : TimePoint) (key : String) :
    fieldBand (spreadMerge a b) key = fieldBand a key ∨
    fieldBand (spreadMerge a b) key = fieldBand b key := by
  rcases eq_or_ne key "susceptible" with h | h1
  · subst h; simp [fieldBand, spreadMerge]; cases hc : b.hasComputed <;> simp [hc]
  rcases eq_or_ne key "infectious" with h | h2
  · subst h; simp [fieldBand, spreadMerge]; cases hc : b.hasComputed <;> simp [hc]
  rcases eq_or_ne key "severe" with h | h3
  · subst h; simp [fieldBand, spreadMerge]; cases hc : b.hasComputed <;> simp [hc]
  rcases eq_or_ne key "critical" with h | h4
  · subst h; simp [fieldBand, spreadMerge]; cases hc : b.hasComputed <;> simp [hc]
  rcases eq_or_ne key "overflow" with h | h5
  · subst h; simp [fieldBand, spreadMerge]; cases hc : b.hasComputed <;> simp [hc]
  rcases eq_or_ne key "recovered" with h | h6
  · subst h; simp [fieldBand, spreadMerge]; cases hc : b.hasComputed <;> simp [hc]
  rcases eq_or_ne key "fatality" with h | h7
  · subst h; simp [fieldBand, spreadMerge]; cases hc : b.hasComputed <;> simp [hc]
  simp [fieldBand, h1, h2, h3, h4, h5, h6, h7]

/-- A field of a spread-merge that is absent on both operands stays absent
(the merge only ever copies one of the two operands' values). -/
theorem spreadMerge_key_absent (a b : TimePoint) (key : String)
    (ha : fieldNum a key = none ∧ fieldBand a key = none)
    (hb : fieldNum b key = none ∧ fieldBand b key = none) :
    fieldNum (spreadMerge a b) key = none ∧ fieldBand (spreadMerge a b) key = none := by
  constructor
  · rcases fieldNum_spreadMerge_cases a b key with h | h <;> rw [h]
    · exact ha.1
    · exact hb.1
  · rcases fieldBand_spreadMerge_cases a b key with h | h <;> rw [h]
    · exact ha.2
    · exact hb.2

/-- A projected observation record never carries a metric key that is not in
the enabled set, apart from the two pass-through capacity keys. -/
theorem obsPointOf_key_absent (enabled : List String) (nHB nICU : Option ℤ)
    (cc : List EmpiricalDatum) (i : Nat) (d : EmpiricalDatum) (key : String)
    (hk1 : key ≠ "hospitalBeds") (hk2 : key ≠ "ICUbeds") (hkey : key ∉ enabled) :
    fieldNum (obsPointOf enabled nHB nICU cc i d) key = none ∧
    fieldBand (obsPointOf enabled nHB nICU cc i d) key = none := by
  refine ⟨?_, by simp [fieldBand, obsPointOf]⟩
  rcases eq_or_ne key "susceptible" with h | h1
  · subst h; simp [fieldNum, obsPointOf]
  rcases eq_or_ne key "infectious" with h | h2
  · subst h; simp [fieldNum, obsPointOf]
  rcases eq_or_ne key "severe" with h | h3
  · subst h; simp [fieldNum, obsPointOf]
  rcases eq_or_ne key "critical" with h | h4
  · subst h; simp [fieldNum, obsPointOf]
  rcases eq_or_ne key "overflow" with h | h5
  · subst h; simp [fieldNum, obsPointOf]
  rcases eq_or_ne key "recovered" with h | h6
  · subst h; simp [fieldNum, obsPointOf]
  rcases eq_or_ne key "fatality" with h | h7
  · subst h; simp [fieldNum, obsPointOf]
  rcases eq_or_ne key "cases" with h | h8
  · subst h; simp [fieldNum, obsPointOf, hkey]
  rcases eq_or_ne key "observedDeaths" with h | h9
  · subst h; simp [fieldNum, obsPointOf, hkey]
  rcases eq_or_ne key "currentHospitalized" with h | h10
  · subst h; simp [fieldNum, obsPointOf, hkey]
  rcases eq_or_ne key "ICU" with h | h11
  · subst h; simp [fieldNum, obsPointOf, hkey]
  rcases eq_or_ne key "newCases" with h | h12
  · subst h; simp [fieldNum, obsPointOf, hkey]
  rcases eq_or_ne key "hospitalBeds" with h | h13
  · exact absurd h hk1
  rcases eq_or_ne key "ICUbeds" with h | h14
  · exact absurd h hk2
  simp [fieldNum, h1, h2, h3, h4, h5, h6, h7, h8, h9, h10, h11, h12, h13, h14]

/-- A normalized computed record never carries a metric key (value or band)
that is not in the enabled set, apart from the two pass-through capacity
keys. -/
theorem mkComputedPoint_key_absent (enabled : List String) (nHB nICU : Option ℤ)
    (lower upper : List TrajectorySample) (i : Nat) (x : TrajectorySample)
    (p : TimePoint) (hp : mkComputedPoint enabled nHB nICU lower upper i x = some p)
    (key : String) (hk1 : key ≠ "hospitalBeds") (hk2 : key ≠ "ICUbeds")
    (hkey : key ∉ enabled) :
    fieldNum p key = none ∧ fieldBand p key = none := by
  unfold mkComputedPoint at hp
  rcases hlo : lower[i]? with _ | lo <;> rw [hlo] at hp <;>
    rcases hhi : upper[i]? with _ | hi <;> rw [hhi] at hp <;>
    simp only [] at hp
  · cases hp
  · cases hp
  · cases hp
  · cases hp
    constructor
    · rcases eq_or_ne key "susceptible" with h | h1
      · subst h; simp [fieldNum, hkey]
      rcases eq_or_ne key "infectious" with h | h2
      · subst h; simp [fieldNum, hkey]
      rcases eq_or_ne key "severe" with h | h3
      · subst h; simp [fieldNum, hkey]
      rcases eq_or_ne key "critical" with h | h4
      · subst h; simp [fieldNum, hkey]
      rcases eq_or_ne key "overflow" with h | h5
      · subst h; simp [fieldNum, hkey]
      rcases eq_or_ne key "recovered" with h | h6
      · subst h; simp [fieldNum, hkey]
      rcases eq_or_ne key "fatality" with h | h7
      · subst h; simp [fieldNum, hkey]
      rcases eq_or_ne key "cases" with h | h8
      · subst h; simp [fieldNum]
      rcases eq_or_ne key "observedDeaths" with h | h9
      · subst h; simp [fieldNum]
      rcases eq_or_ne key "currentHospitalized" with h | h10
      · subst h; simp [fieldNum]
      rcases eq_or_ne key "ICU" with h | h11
      · subst h; simp [fieldNum]
      rcases eq_or_ne key "newCases" with h | h12
      · subst h; simp [fieldNum]
      rcases eq_or_ne key "hospitalBeds" with h | h13
      · exact absurd h hk1
      rcases eq_or_ne key "ICUbeds" with h | h14
      · exact absurd h hk2
      simp [fieldNum, h1, h2, h3, h4, h5, h6, h7, h8, h9, h10, h11, h12, h13, h14]
    · rcases eq_or_ne key "susceptible" with h | h1
      · subst h; simp [fieldBand, hkey]
      rcases eq_or_ne key "infectious" with h | h2
      · subst h; simp [fieldBand, hkey]
      rcases eq_or_ne key "severe" with h | h3
      · subst h; simp [fieldBand, hkey]
      rcases eq_or_ne key "critical" with h | h4
      · subst h; simp [fieldBand, hkey]
      rcases eq_or_ne key "overflow" with h | h5
      · subst h; simp [fieldBand, hkey]
      rcases eq_or_ne key "recovered" with h | h6
      · subst h; simp [fieldBand, hkey]
      rcases eq_or_ne key "fatality" with h | h7
      · subst h; simp [fieldBand, hkey]
      simp [fieldBand, h1, h2, h3, h4, h5, h6, h7]

theorem buildComputed_mem (enabled : List String) (nHB nICU : Option ℤ)
    (lower upper : List TrajectorySample) :
    ∀ (xs : List TrajectorySample) (i : Nat) (l : List TimePoint),
      buildComputed enabled nHB nICU lower upper i xs = some l →
      ∀ p ∈ l, ∃ j x, mkComputedPoint enabled nHB nICU lower upper j x = some p := by
  intro xs
  induction xs with
  | nil =>
    intro i l hl p hp
    simp only [buildComputed] at hl
    cases hl
    cases hp
  | cons x xs ih =>
    intro i l hl p hp
    simp only [buildComputed, Option.bind_eq_bind, bind, Option.bind_eq_some] at hl
    obtain ⟨q, hq, rest, hrest, hcons⟩ := hl
    cases hcons
    rcases List.mem_cons.mp hp with h | h
    · exact ⟨i, x, h ▸ hq⟩
    · exact ih (i + 1) rest hrest p h

/-- C4 (amended): for every metric key other than the two pass-through
capacity keys `hospitalBeds` / `ICUbeds`, recomputing with an enabled set
not containing the key (removing every occurrence — note `'newCases'`
occurs twice in the default list, so one splice is not enough for it) never
fails, and no TimePoint of the merged series carries a value or a band for
that key. -/
theorem toggle_removed_key_absent (key : String)
    (hk1 : key ≠ "hospitalBeds") (hk2 : key ≠ "ICUbeds")
    (enabled : List String) (hkey : key ∉ enabled)
    (hbP icuP : ℤ) (mean lower upper : List TrajectorySample)
    (caseCounts : List EmpiricalDatum)
    (hl : lower.length = mean.length) (hu : upper.length = mean.length) :
    ∃ m, mergedSeries enabled hbP icuP mean lower upper caseCounts = some m ∧
      ∀ p ∈ m, fieldNum p key = none ∧ fieldBand p key = none := by
  obtain ⟨pc, hpc, -⟩ :=
    buildComputed_some enabled (verifyPositive hbP) (verifyPositive icuP) lower upper mean 0
      (by omega) (by omega)
  refine ⟨consolidatedPlotData (sortByTime
      (pc ++ observations enabled (verifyPositive hbP) (verifyPositive icuP) caseCounts)),
    by simp [mergedSeries, plotDataAll, hpc], ?_⟩
  apply consolidatedPlotData_preserve _ (fun a b => spreadMerge_key_absent a b key)
  intro q hq
  have hq' : q ∈ pc ++ observations enabled (verifyPositive hbP) (verifyPositive icuP)
      caseCounts := by
    have hperm := List.perm_insertionSort timeLE
      (pc ++ observations enabled (verifyPositive hbP) (verifyPositive icuP) caseCounts)
    exact hperm.mem_iff.mp hq
  rcases List.mem_append.mp hq' with h | h
  · obtain ⟨j, x, hx⟩ :=
      buildComputed_mem enabled (verifyPositive hbP) (verifyPositive icuP) lower upper
        mean 0 pc hpc q h
    exact mkComputedPoint_key_absent _ _ _ _ _ _ _ _ hx key hk1 hk2 hkey
  · simp only [observations, List.mem_map] at h
    obtain ⟨pr, -, hpr⟩ := h
    exact hpr ▸ obsPointOf_key_absent _ _ _ _ _ _ key hk1 hk2 hkey


/-! ### C7: the value-axis maximum -/

theorem maxOpt_append (l₁ l₂ : List ℤ) :
    (l₁ ++ l₂).max? =
      match l₁.max?, l₂.max? with
      | none, x => x
      | some a, none => some a
      | some a, some b => some (max a b) := by
  induction l₁ with
  | nil =>
    rcases hl : l₂.max? with _ | v
    · rw [List.nil_append, hl, List.max?_nil]
    · rw [List.nil_append, hl, List.max?_nil]
  | cons a t ih =>
    rw [List.cons_append, List.max?_cons, List.max?_cons, ih]
    rcases t.max? with _ | m <;> rcases l₂.max? with _ | n <;>
      simp [Option.elim, max_assoc]

theorem lodashMax_cons (x : Option ℤ) (t : List (Option ℤ)) :
    lodashMax (x :: t) =
      match x, lodashMax t with
      | none, m => m
      | some a, none => some a
      | some a, some m => some (max a m) := by
  cases x <;> rcases h : lodashMax t with _ | m <;> simp [lodashMax, h]

/-- `_.max` over an array of possibly-undefined values is the `max?` of the
defined ones. -/
theorem lodashMax_eq_maxOpt (l : List (Option ℤ)) : lodashMax l = (l.filterMap id).max? := by
  induction l with
  | nil => rfl
  | cons x t ih =>
    rw [lodashMax_cons, ih]
    cases x with
    | none => simp
    | some a =>
      rw [show (some a :: t).filterMap id = a :: t.filterMap id from rfl, List.max?_cons]
      rcases (t.filterMap id).max? with _ | m <;> simp [Option.elim]

theorem lodashMax_eq_none_iff (l : List (Option ℤ)) :
    lodashMax l = none ↔ l.filterMap id = [] := by
  rw [lodashMax_eq_maxOpt]
  cases l.filterMap id <;> simp [List.max?_cons]

/-- The nested maximum computed by `yDataMax` equals the maximum over the
flattened list of qualifying values. -/
theorem yDataMax_eq_flatten (enabled : List String) (l : List TimePoint) :
    yDataMax enabled l = (qualifyingValues enabled l).max? := by
  unfold yDataMax qualifyingValues
  induction l with
  | nil => rfl
  | cons d t ih =>
    rw [List.map_cons, List.flatMap_cons, maxOpt_append, lodashMax_cons, ih]
    rw [lodashMax_eq_maxOpt, List.filterMap_map]
    rfl

/-- Replace the two pass-through capacity fields of a plot record; every
other field is untouched. -/
def setBeds (nHB nICU : Option ℤ) (p : TimePoint) : TimePoint :=
  { p with hospitalBeds := nHB, ICUbeds := nICU }

theorem setBeds_time (nHB nICU : Option ℤ) (p : TimePoint) :
    (setBeds nHB nICU p).time = p.time := rfl

theorem setBeds_spreadMerge (nHB nICU : Option ℤ) (a b : TimePoint) :
    setBeds nHB nICU (spreadMerge a b) =
      spreadMerge (setBeds nHB nICU a) (setBeds nHB nICU b) := by
  cases a
  cases b
  rfl

theorem mkComputedPoint_setBeds (enabled : List String) (nHB nICU : Option ℤ)
    (lower upper : List TrajectorySample) (i : Nat) (x : TrajectorySample) :
    mkComputedPoint enabled nHB nICU lower upper i x =
      (mkComputedPoint enabled none none lower upper i x).map (setBeds nHB nICU) := by
  unfold mkComputedPoint
  rcases lower[i]? with _ | lo <;> rcases upper[i]? with _ | hi <;> rfl

theorem obsPointOf_setBeds (enabled : List String) (nHB nICU : Option ℤ)
    (cc : List EmpiricalDatum) (i : Nat) (d : EmpiricalDatum) :
    obsPointOf enabled nHB nICU cc i d =
      setBeds nHB nICU (obsPointOf enabled none none cc i d) := rfl

theorem buildComputed_setBeds (enabled : List String) (nHB nICU : Option ℤ)
    (lower upper : List TrajectorySample) :
    ∀ (xs : List TrajectorySample) (i : Nat),
      buildComputed enabled nHB nICU lower upper i xs =
        (buildComputed enabled none none lower upper i xs).map
          (List.map (setBeds nHB nICU)) := by
  intro xs
  induction xs with
  | nil => intro i; rfl
  | cons x t ih =>
    intro i
    simp only [buildComputed, Option.bind_eq_bind, bind]
    rw [mkComputedPoint_setBeds, ih]
    rcases mkComputedPoint enabled none none lower upper i x with _ | p <;>
      rcases buildComputed enabled none none lower upper (i + 1) t with _ | rest <;>
      rfl

theorem observations_setBeds (enabled : List String) (nHB nICU : Option ℤ)
    (caseCounts : List EmpiricalDatum) :
    observations enabled nHB nICU caseCounts =
      (observations enabled none none caseCounts).map (setBeds nHB nICU) := by
  unfold observations
  rw [List.map_map]
  exact List.map_congr_left fun p _ => obsPointOf_setBeds enabled nHB nICU _ p.1 p.2

theorem sortByTime_map_setBeds (nHB nICU : Option ℤ) (ps : List TimePoint) :
    sortByTime (ps.map (setBeds nHB nICU)) = (sortByTime ps).map (setBeds nHB nICU) := by
  unfold sortByTime
  exact (List.map_insertionSort timeLE timeLE (setBeds nHB nICU) ps
    (fun a _ b _ => Iff.rfl)).symm

theorem foldl_consolidateStep_map (f : TimePoint → TimePoint)
    (htime : ∀ p, (f p).time = p.time)
    (hmerge : ∀ a b, f (spreadMerge a b) = spreadMerge (f a) (f b)) :
    ∀ (l acc : List TimePoint),
      (l.map f).foldl consolidateStep (acc.map f) =
        (l.foldl consolidateStep acc).map f := by
  intro l
  induction l with
  | nil => intro acc; rfl
  | cons d t ih =>
    intro acc
    rw [List.map_cons, List.foldl_cons, List.foldl_cons]
    rw [show consolidateStep (acc.map f) (f d) = (consolidateStep acc d).map f from ?_]
    · exact ih (consolidateStep acc d)
    · cases acc with
      | nil => rfl
      | cons last rest =>
        simp only [consolidateStep, List.map_cons, htime]
        by_cases h : d.time = last.time <;> simp [h, hmerge]

theorem consolidatedPlotData_map (f : TimePoint → TimePoint)
    (htime : ∀ p, (f p).time = p.time)
    (hmerge : ∀ a b, f (spreadMerge a b) = spreadMerge (f a) (f b))
    (ps : List TimePoint) :
    consolidatedPlotData (ps.map f) = (consolidatedPlotData ps).map f := by
  cases ps with
  | nil => rfl
  | cons p t =>
    have h1 : consolidatedPlotData ((p :: t).map f) =
        (((p :: t).map f).foldl consolidateStep ([p].map f)).reverse := rfl
    have h2 : consolidatedPlotData (p :: t) =
        ((p :: t).foldl consolidateStep [p]).reverse := rfl
    rw [h1, h2, foldl_consolidateStep_map f htime hmerge (p :: t) [p]]
    exact (List.map_reverse _ _).symm

theorem mergedSeries_setBeds (enabled : List String) (hbP icuP : ℤ)
    (mean lower upper : List TrajectorySample) (caseCounts : List EmpiricalDatum) :
    mergedSeries enabled hbP icuP mean lower upper caseCounts =
      (mergedSeries enabled 0 0 mean lower upper caseCounts).map
        (List.map (setBeds (verifyPositive hbP) (verifyPositive icuP))) := by
  unfold mergedSeries plotDataAll
  rw [buildComputed_setBeds, observations_setBeds, show verifyPositive 0 = none from rfl]
  rcases buildComputed enabled none none lower upper 0 mean with _ | pc
  · rfl
  · simp only [Option.map_some, Option.map_map, Function.comp_def]
    congr 1
    funext x
    rw [← List.map_append, sortByTime_map_setBeds,
      consolidatedPlotData_map _ (setBeds_time _ _) (setBeds_spreadMerge _ _)]

theorem fieldNum_setBeds (nHB nICU : Option ℤ) (p : TimePoint) (key : String)
    (hk1 : key ≠ "hospitalBeds") (hk2 : key ≠ "ICUbeds") :
    fieldNum (setBeds nHB nICU p) key = fieldNum p key := by
  rcases eq_or_ne key "susceptible" with h | h1
  · subst h; simp [fieldNum, setBeds]
  rcases eq_or_ne key "infectious" with h | h2
  · subst h; simp [fieldNum, setBeds]
  rcases eq_or_ne key "severe" with h | h3
  · subst h; simp [fieldNum, setBeds]
  rcases eq_or_ne key "critical" with h | h4
  · subst h; simp [fieldNum, setBeds]
  rcases eq_or_ne key "overflow" with h | h5
  · subst h; simp [fieldNum, setBeds]
  rcases eq_or_ne key "recovered" with h | h6
  · subst h; simp [fieldNum, setBeds]
  rcases eq_or_ne key "fatality" with h | h7
  · subst h; simp [fieldNum, setBeds]
  rcases eq_or_ne key "cases" with h | h8
  · subst h; simp [fieldNum, setBeds]
  rcases eq_or_ne key "observedDeaths" with h | h9
  · subst h; simp [fieldNum, setBeds]
  rcases eq_or_ne key "currentHospitalized" with h | h10
  · subst h; simp [fieldNum, setBeds]
  rcases eq_or_ne key "ICU" with h | h11
  · subst h; simp [fieldNum, setBeds]
  rcases eq_or_ne key "newCases" with h | h12
  · subst h; simp [fieldNum, setBeds]
  simp [fieldNum, h1, h2, h3, h4, h5, h6, h7, h8, h9, h10, h11, h12, hk1, hk2]

theorem yDataMax_map_setBeds (enabled : List String) (nHB nICU : Option ℤ)
    (l : List TimePoint) :
    yDataMax enabled (l.map (setBeds nHB nICU)) = yDataMax enabled l := by
  unfold yDataMax
  rw [List.map_map]
  refine congrArg lodashMax (List.map_congr_left ?_)
  intro p _
  refine congrArg lodashMax (List.map_congr_left ?_)
  intro k hk
  have hkk : ¬k = "hospitalBeds" ∧ ¬k = "ICUbeds" := by
    have := (List.mem_filter.mp hk).2
    simpa using this
  exact fieldNum_setBeds nHB nICU p k hkk.1 hkk.2

theorem maxOpt_eq_none_iff (l : List ℤ) : l.max? = none ↔ l = [] := by
  cases l <;> simp [List.max?_cons]

/-- C7 (confirmed): `yDataMax` is the maximum over the merged series of the
values of the enabled non-reference metric fields; the padded axis bound is
that maximum times `1.1`; both are undefined exactly when no qualifying
value exists; and the result is unchanged when the two reference bed
capacities are changed, even though those keys are in the enabled set. -/
theorem yDataMax_spec_and_reference_invariant
    (enabled : List String) (hbP icuP hbP2 icuP2 : ℤ)
    (mean lower upper : List TrajectorySample) (caseCounts : List EmpiricalDatum)
    (l l2 : List TimePoint)
    (h : mergedSeries enabled hbP icuP mean lower upper caseCounts = some l)
    (h2 : mergedSeries enabled hbP2 icuP2 mean lower upper caseCounts = some l2) :
    yDataMax enabled l = (qualifyingValues enabled l).max? ∧
    paddedYMax enabled l =
      ((qualifyingValues enabled l).max?).map (fun v => (v : ℚ) * (11 / 10)) ∧
    (paddedYMax enabled l = none ↔ qualifyingValues enabled l = []) ∧
    yDataMax enabled l2 = yDataMax enabled l := by
  have base : ∃ lb, mergedSeries enabled 0 0 mean lower upper caseCounts = some lb ∧
      l = lb.map (setBeds (verifyPositive hbP) (verifyPositive icuP)) := by
    rw [mergedSeries_setBeds enabled hbP icuP] at h
    rcases hb : mergedSeries enabled 0 0 mean lower upper caseCounts with _ | lb
    · rw [hb] at h; cases h
    · rw [hb] at h
      exact ⟨lb, rfl, (Option.some.inj h).symm⟩
  obtain ⟨lb, hlb, rfl⟩ := base
  have base2 : l2 = lb.map (setBeds (verifyPositive hbP2) (verifyPositive icuP2)) := by
    rw [mergedSeries_setBeds enabled hbP2 icuP2, hlb] at h2
    exact (Option.some.inj h2).symm
  subst base2
  refine ⟨yDataMax_eq_flatten _ _, ?_, ?_, ?_⟩
  · unfold paddedYMax
    rw [yDataMax_eq_flatten]
  · unfold paddedYMax
    rw [yDataMax_eq_flatten]
    rcases hq : (qualifyingValues enabled
        (lb.map (setBeds (verifyPositive hbP) (verifyPositive icuP)))).max? with _ | v
    · simp [(maxOpt_eq_none_iff _).mp hq]
    · have hne : qualifyingValues enabled
          (lb.map (setBeds (verifyPositive hbP) (verifyPositive icuP))) ≠ [] := by
        intro he
        rw [he] at hq
        cases hq
      simp [hne]
  · rw [yDataMax_map_setBeds, yDataMax_map_setBeds]

/-! ### C8: clamping of the mitigation overlay -/

instance : Std.Antisymm (fun x1 x2 : ℤ => x1 ≤ x2) :=
  ⟨fun h h2 => le_antisymm h h2⟩

theorem intMinOpt_spec {l : List ℤ} {a : ℤ} (h : l.min? = some a) :
    a ∈ l ∧ ∀ b ∈ l, a ≤ b := by
  rw [List.min?_eq_some_iff (fun a => le_refl a) (fun a b => min_choice a b)
    (fun a b c => le_min_iff)] at h
  exact h

theorem intMaxOpt_spec {l : List ℤ} {a : ℤ} (h : l.max? = some a) :
    a ∈ l ∧ ∀ b ∈ l, b ≤ a := by
  rw [List.max?_eq_some_iff (fun a => le_refl a) (fun a b => max_choice a b)
    (fun a b c => max_le_iff)] at h
  exact h

/-- C8 (confirmed): for a non-empty series, the overlay rectangle of a
mitigation interval has both time bounds clamped into `[tMin, tMax]` and its
strength clamped into `[0, 100]` (upper bound applied before lower, i.e.
`max lo (min x hi)`); values already in range pass through unchanged, and
the interval itself is only read, never modified — the props are a fresh
copy carrying the interval's color and name. -/
theorem referenceArea_clamped (iv : MitigationInterval) (ps : List TimePoint)
    (h : ps ≠ []) :
    ∃ tmin tmax, tMinOf ps = some tmin ∧ tMaxOf ps = some tmax ∧ tmin ≤ tmax ∧
      referenceAreaProps iv tmin tmax =
        { x1 := max tmin (min iv.timeRangeTMin tmax)
          x2 := max tmin (min iv.timeRangeTMax tmax)
          y1 := 0
          y2 := max 0 (min iv.mitigationValue 100)
          fill := iv.color
          labelValue := iv.name } ∧
      tmin ≤ (referenceAreaProps iv tmin tmax).x1 ∧
      (referenceAreaProps iv tmin tmax).x1 ≤ tmax ∧
      tmin ≤ (referenceAreaProps iv tmin tmax).x2 ∧
      (referenceAreaProps iv tmin tmax).x2 ≤ tmax ∧
      (0 : ℚ) ≤ (referenceAreaProps iv tmin tmax).y2 ∧
      (referenceAreaProps iv tmin tmax).y2 ≤ 100 ∧
      (tmin ≤ iv.timeRangeTMin → iv.timeRangeTMin ≤ tmax →
        (referenceAreaProps iv tmin tmax).x1 = iv.timeRangeTMin) ∧
      ((0 : ℚ) ≤ iv.mitigationValue → iv.mitigationValue ≤ 100 →
        (referenceAreaProps iv tmin tmax).y2 = iv.mitigationValue) := by
  obtain ⟨p, t, rfl⟩ : ∃ p t, ps = p :: t := by
    cases ps with
    | nil => exact absurd rfl h
    | cons p t => exact ⟨p, t, rfl⟩
  obtain ⟨tmin, hmin⟩ : ∃ m, tMinOf (p :: t) = some m := by
    unfold tMinOf
    rw [List.map_cons]
    exact ⟨_, List.min?_cons⟩
  obtain ⟨tmax, hmax⟩ : ∃ m, tMaxOf (p :: t) = some m := by
    unfold tMaxOf
    rw [List.map_cons]
    exact ⟨_, List.max?_cons⟩
  obtain ⟨hminmem, hminle⟩ := intMinOpt_spec hmin
  obtain ⟨hmaxmem, hmaxle⟩ := intMaxOpt_spec hmax
  have hmm : tmin ≤ tmax := hminle tmax hmaxmem
  refine ⟨tmin, tmax, hmin, hmax, hmm, rfl, ?_, ?_, ?_, ?_, ?_, ?_, ?_, ?_⟩
  · exact le_max_left _ _
  · exact max_le hmm (min_le_right _ _)
  · exact le_max_left _ _
  · exact max_le hmm (min_le_right _ _)
  · exact le_max_left _ _
  · exact max_le (by norm_num) (min_le_right _ _)
  · intro h1 h2
    show max tmin (min iv.timeRangeTMin tmax) = iv.timeRangeTMin
    rw [min_eq_left h2, max_eq_right h1]
  · intro h1 h2
    show max 0 (min iv.mitigationValue 100) = iv.mitigationValue
    rw [min_eq_left h2, max_eq_right h1]

/-! ### Concrete fixtures used by the witnesses below -/

def sW : TrajectorySample := ⟨0, ⟨100, 0, 0, 0, 0⟩, ⟨0, 0⟩⟩

def ccW3 : List EmpiricalDatum :=
  [⟨0, some 10, none, none, none⟩, ⟨1, some 20, none, none, none⟩,
   ⟨2, some 30, none, none, none⟩, ⟨3, some 50, none, none, none⟩]

def ccW9 : List EmpiricalDatum :=
  [⟨0, some 5, none, none, none⟩, ⟨1, some 0, some 0, some 0, some 0⟩,
   ⟨2, none, some 2, none, none⟩]

def tpW : TimePoint :=
  ⟨0, false, true, none, none, none, none, none, none, none, none, none, none,
   none, none, none, none, some 7, none, none, none, none, none, none⟩

def ivW : MitigationInterval := ⟨"iv1", "Lockdown", "#aabbcc", 5, 900, 50⟩

/-! ### Witnesses -/

theorem mergedSeries_sorted_unique_witness :
    ∃ ps l, plotDataAll dataPointsValues 0 0 [] [] [] ccW3 = some ps ∧
      mergedSeries dataPointsValues 0 0 [] [] [] ccW3 = some l ∧
      (l.Pairwise (fun u v => u.time < v.time) ∧
        (l.map TimePoint.time).Nodup ∧
        ∀ t, t ∈ l.map TimePoint.time ↔ t ∈ ps.map TimePoint.time) := by
  refine ⟨_, _, rfl, rfl, ?_⟩
  exact mergedSeries_sorted_unique dataPointsValues 0 0 [] [] [] ccW3 _ _ rfl rfl

theorem newCases_defined_iff_witness :
    (3 : Nat) < ccW3.length ∧
    (((newCases ccW3 3).isSome = true) ↔
      (caseStep ≤ 3 ∧ truthyOpt (casesAt ccW3 3) = true ∧
        truthyOpt (casesAt ccW3 (3 - caseStep)) = true ∧
        0 < (casesAt ccW3 3).getD 0 - (casesAt ccW3 (3 - caseStep)).getD 0)) ∧
    ∀ v, newCases ccW3 3 = some v →
      v = (casesAt ccW3 3).getD 0 - (casesAt ccW3 (3 - caseStep)).getD 0 := by
  refine ⟨by decide, ?_, ?_⟩
  · exact (newCases_defined_iff ccW3 3 (by decide)).1
  · exact (newCases_defined_iff ccW3 3 (by decide)).2

theorem toggle_removed_key_absent_witness :
    ∃ m, mergedSeries ["cases"] 0 0 [] [] [] [⟨0, some 5, none, none, none⟩] = some m ∧
      ∀ p ∈ m, fieldNum p "susceptible" = none ∧ fieldBand p "susceptible" = none :=
  toggle_removed_key_absent "susceptible" (by decide) (by decide) ["cases"] (by decide)
    0 0 [] [] [] [⟨0, some 5, none, none, none⟩] rfl rfl

theorem plotData_value_iff_enabled_nonzero_witness :
    ∃ p, mkComputedPoint ["susceptible"] none none [sW] [sW] 0 sW = some p ∧
      (p.susceptible = (if "susceptible" ∈ ["susceptible"] ∧
          jsRound sW.current.susceptible ≠ 0 then
        some (jsRound sW.current.susceptible) else none) ∧
      p.infectious = (if "infectious" ∈ ["susceptible"] ∧
          jsRound sW.current.infectious ≠ 0 then
        some (jsRound sW.current.infectious) else none) ∧
      p.severe = (if "severe" ∈ ["susceptible"] ∧ jsRound sW.current.severe ≠ 0 then
        some (jsRound sW.current.severe) else none) ∧
      p.critical = (if "critical" ∈ ["susceptible"] ∧ jsRound sW.current.critical ≠ 0 then
        some (jsRound sW.current.critical) else none) ∧
      p.overflow = (if "overflow" ∈ ["susceptible"] ∧ jsRound sW.current.overflow ≠ 0 then
        some (jsRound sW.current.overflow) else none) ∧
      p.recovered = (if "recovered" ∈ ["susceptible"] ∧
          jsRound sW.cumulative.recovered ≠ 0 then
        some (jsRound sW.cumulative.recovered) else none) ∧
      p.fatality = (if "fatality" ∈ ["susceptible"] ∧
          jsRound sW.cumulative.fatality ≠ 0 then
        some (jsRound sW.cumulative.fatality) else none)) := by
  refine ⟨_, rfl, ?_⟩
  exact plotData_value_iff_enabled_nonzero ["susceptible"] none none [sW] [sW] 0 sW _ rfl

theorem band_iff_enabled_witness :
    ∃ p, mkComputedPoint ["susceptible"] none none [sW] [sW] 0 sW = some p ∧
      (p.susceptible_area = (if "susceptible" ∈ ["susceptible"] then
        some (jsRound sW.current.susceptible, jsRound sW.current.susceptible) else none) ∧
      p.infectious_area = (if "infectious" ∈ ["susceptible"] then
        some (jsRound sW.current.infectious, jsRound sW.current.infectious) else none) ∧
      p.severe_area = (if "severe" ∈ ["susceptible"] then
        some (jsRound sW.current.severe, jsRound sW.current.severe) else none) ∧
      p.critical_area = (if "critical" ∈ ["susceptible"] then
        some (jsRound sW.current.critical, jsRound sW.current.critical) else none) ∧
      p.overflow_area = (if "overflow" ∈ ["susceptible"] then
        some (jsRound sW.current.overflow, jsRound sW.current.overflow) else none) ∧
      p.recovered_area = (if "recovered" ∈ ["susceptible"] then
        some (jsRound sW.cumulative.recovered, jsRound sW.cumulative.recovered) else none) ∧
      p.fatality_area = (if "fatality" ∈ ["susceptible"] then
        some (jsRound sW.cumulative.fatality, jsRound sW.cumulative.fatality) else none)) := by
  refine ⟨_, rfl, ?_⟩
  exact band_iff_enabled ["susceptible"] none none [sW] [sW] 0 sW sW sW _ rfl rfl rfl

theorem yDataMax_spec_and_reference_invariant_witness :
    ∃ l l2, mergedSeries ["susceptible"] 10 0 [sW] [sW] [sW] [] = some l ∧
      mergedSeries ["susceptible"] 20 0 [sW] [sW] [sW] [] = some l2 ∧
      (yDataMax ["susceptible"] l = (qualifyingValues ["susceptible"] l).max? ∧
      paddedYMax ["susceptible"] l =
        ((qualifyingValues ["susceptible"] l).max?).map (fun v => (v : ℚ) * (11 / 10)) ∧
      (paddedYMax ["susceptible"] l = none ↔ qualifyingValues ["susceptible"] l = []) ∧
      yDataMax ["susceptible"] l2 = yDataMax ["susceptible"] l) := by
  refine ⟨_, _, rfl, rfl, ?_⟩
  exact yDataMax_spec_and_reference_invariant ["susceptible"] 10 0 20 0 [sW] [sW] [sW] []
    _ _ rfl rfl

theorem referenceArea_clamped_witness :
    ∃ tmin tmax, tMinOf [tpW] = some tmin ∧ tMaxOf [tpW] = some tmax ∧ tmin ≤ tmax ∧
      referenceAreaProps ivW tmin tmax =
        { x1 := max tmin (min ivW.timeRangeTMin tmax)
          x2 := max tmin (min ivW.timeRangeTMax tmax)
          y1 := 0
          y2 := max 0 (min ivW.mitigationValue 100)
          fill := ivW.color
          labelValue := ivW.name } ∧
      tmin ≤ (referenceAreaProps ivW tmin tmax).x1 ∧
      (referenceAreaProps ivW tmin tmax).x1 ≤ tmax ∧
      tmin ≤ (referenceAreaProps ivW tmin tmax).x2 ∧
      (referenceAreaProps ivW tmin tmax).x2 ≤ tmax ∧
      (0 : ℚ) ≤ (referenceAreaProps ivW tmin tmax).y2 ∧
      (referenceAreaProps ivW tmin tmax).y2 ≤ 100 ∧
      (tmin ≤ ivW.timeRangeTMin → ivW.timeRangeTMin ≤ tmax →
        (referenceAreaProps ivW tmin tmax).x1 = ivW.timeRangeTMin) ∧
      ((0 : ℚ) ≤ ivW.mitigationValue → ivW.mitigationValue ≤ 100 →
        (referenceAreaProps ivW tmin tmax).y2 = ivW.mitigationValue) :=
  referenceArea_clamped ivW [tpW] (by simp)

theorem filter_drops_allFalsy_witness :
    (∀ d ∈ nonEmptyCaseCounts ccW9,
      truthyOpt d.cases = true ∨ truthyOpt d.deaths = true ∨ truthyOpt d.icu = true ∨
        truthyOpt d.hospitalized = true) ∧
    (∀ d ∈ ccW9,
      truthyOpt d.cases = false → truthyOpt d.deaths = false → truthyOpt d.icu = false →
        truthyOpt d.hospitalized = false → d ∉ nonEmptyCaseCounts ccW9) ∧
    (observations ["cases"] none none ccW9).length = (nonEmptyCaseCounts ccW9).length ∧
    ∀ i : Nat, ((observations ["cases"] none none ccW9)[i]?).map TimePoint.time =
      ((nonEmptyCaseCounts ccW9)[i]?).map EmpiricalDatum.time :=
  filter_drops_allFalsy ccW9 ["cases"] none none

theorem plotData_total_of_aligned_witness :
    ∃ pc, buildComputed ["susceptible"] (verifyPositive 0) (verifyPositive 0)
        [sW] [sW] 0 [sW] = some pc ∧
      pc.length = [sW].length ∧
      ∃ m, mergedSeries ["susceptible"] 0 0 [sW] [sW] [sW] [] = some m :=
  plotData_total_of_aligned ["susceptible"] 0 0 [sW] [sW] [sW] [] rfl rfl
